import Mathlib

/-!
Verification of the MealMaster recipe cache layer.

The spec covers the cache layer between the API handlers and the upstream
recipe provider: a SearchCache keyed by normalized query text with a 24 hour
TTL, a DetailCache keyed by upstream recipe identifier gated on the presence
of a nutrition block, an UpstreamClient adapter, and the orchestrating
search and detail flows. The backend implementation file of the cache layer
is not part of the shipped sources; the repository ships its documentation
(the Recipe Caching System section of the backend README) and its frontend
callers, so the cache layer is modelled from the spec below. The frontend
search handler of components slash RecipeSearch.tsx is embedded from the
source directly.

Times are modelled as natural numbers of seconds, upstream recipe
identifiers as natural numbers, and the persisted tables as lists of rows.
-/

/-- Whitespace predicate used by query normalization: space, tab, newline
and carriage return, matching the whitespace classes split on by the
normalization step. -/
def isWs (c : Char) : Bool :=
  c = ' ' || c = '\t' || c = '\n' || c = '\r'

/-- ASCII lowercase folding of a single character. -/
def toLowerChar (c : Char) : Char :=
  if c.toNat ≥ 65 && c.toNat ≤ 90 then Char.ofNat (c.toNat + 32) else c

/-- Collapses runs of whitespace into a single space and drops leading
whitespace. The boolean argument records whether the previously emitted
position ended in whitespace (initially true, so leading whitespace is
dropped). -/
def collapseWs (prevWs : Bool) : List Char → List Char
  | [] => []
  | c :: rest =>
    if isWs c then
      if prevWs then collapseWs true rest
      else ' ' :: collapseWs true rest
    else c :: collapseWs false rest

/-- Drops trailing whitespace from a character list. -/
def rtrimChars (l : List Char) : List Char :=
  (l.reverse.dropWhile isWs).reverse

/-- Normalization of a query character list: trim, collapse internal
whitespace, lowercase. Modelled from the spec: normalizes the input (trim,
lowercase, collapse internal whitespace). -/
def normChars (l : List Char) : List Char :=
  (rtrimChars (collapseWs true l)).map toLowerChar

/-- Normalized form of a query string. Modelled from the spec: search text
after case-folding and whitespace collapse, used to derive the cache key. -/
def normalizeQuery (s : String) : String :=
  ⟨normChars s.data⟩

/-- Cache key of a query. Modelled from the spec: a deterministic digest of
the normalized query; the model uses the normalized text itself, which is
deterministic and collides exactly on queries with equal normal forms, the
only property of the digest the cache layer relies on. -/
def queryHash (s : String) : String :=
  normalizeQuery s

/-- TTL constant CACHE_DURATION_HOURS = 24 from the backend configuration. -/
def CACHE_DURATION_HOURS : Nat := 24

/-- Search cache TTL in seconds. -/
def ttlSeconds : Nat := CACHE_DURATION_HOURS * 3600

/-- Row of the cached_search_queries table. Modelled from the spec: id,
original query text, queryHash over the normalized form, ordered resultIds,
totalResults, createdAt and expiresAt = createdAt + TTL. -/
structure CachedSearchQuery where
  id : Nat
  query : String
  queryHash : String
  resultIds : List Nat
  totalResults : Nat
  createdAt : Nat
  expiresAt : Nat
deriving DecidableEq

/-- Persisted state of the search cache table. -/
abbrev SearchStore := List CachedSearchQuery

/-- Lookup in the search cache. Modelled from the spec: normalizes the
input, computes queryHash over the normalized form, loads the matching row
if any, and returns a hit only if now < expiresAt; an expired row is
treated identically to a miss. -/
def SearchCache.lookup (st : SearchStore) (now : Nat) (q : String) :
    Option (List Nat × Nat) :=
  match st.find? (fun r => r.queryHash = queryHash q) with
  | some r => if now < r.expiresAt then some (r.resultIds, r.totalResults) else none
  | none => none

/-- Fresh surrogate id for a new search cache row. -/
def SearchCache.freshId (st : SearchStore) : Nat :=
  st.foldr (fun r m => max r.id m) 0 + 1

/-- Store into the search cache. Modelled from the spec: computes the same
normalized hash and replaces any existing row for that hash (no duplicate
accumulation) with a new row having createdAt = now and
expiresAt = now + 24h. -/
def SearchCache.store (st : SearchStore) (now : Nat) (q : String)
    (ids : List Nat) (tot : Nat) : SearchStore :=
  (st.filter (fun r => r.queryHash ≠ queryHash q)) ++
    [{ id := SearchCache.freshId st, query := q, queryHash := queryHash q,
       resultIds := ids, totalResults := tot,
       createdAt := now, expiresAt := now + ttlSeconds }]

/-- Full upstream recipe payload. Modelled from the spec: an opaque
structured document of which the cache layer inspects only the nutrition
block, plus the title and image fields the detail flow denormalizes into
the row. The untouched remainder of the document is kept as an opaque
payload field. -/
structure RecipeData where
  title : String
  image : String
  nutrition : List String
  payload : String
deriving DecidableEq

/-- Completeness of a payload: true iff the nutrition block is non-empty. -/
def RecipeData.complete (d : RecipeData) : Bool :=
  !d.nutrition.isEmpty

/-- Row of the cached_recipes table. Modelled from the spec: surrogate id,
unique externalId, denormalized title and imageUrl, opaque data, createdAt
and updatedAt. -/
structure CachedRecipe where
  id : Nat
  externalId : Nat
  title : String
  imageUrl : String
  data : RecipeData
  createdAt : Nat
  updatedAt : Nat
deriving DecidableEq

/-- Persisted state of the detail cache table. -/
abbrev DetailStore := List CachedRecipe

/-- Lookup in the detail cache. Modelled from the spec: fetches by
externalId; a row is returned as a usable hit only if it is complete (has a
non-empty nutrition block); an incomplete row is surfaced as a miss even
though the row physically exists. -/
def DetailCache.lookup (st : DetailStore) (eid : Nat) : Option CachedRecipe :=
  match st.find? (fun r => r.externalId = eid) with
  | some r => if r.data.complete then some r else none
  | none => none

/-- Fresh surrogate id for a new detail cache row. -/
def DetailCache.freshId (st : DetailStore) : Nat :=
  st.foldr (fun r m => max r.id m) 0 + 1

/-- Upsert into the detail cache. Modelled from the spec: if no row exists
for externalId, insert; if one exists, overwrite title, imageUrl, data and
set updatedAt = now, preserving createdAt and the surrogate id. -/
def DetailCache.upsert (st : DetailStore) (now : Nat) (eid : Nat)
    (title imageUrl : String) (data : RecipeData) : DetailStore :=
  if st.any (fun r => r.externalId = eid) then
    st.map (fun r =>
      if r.externalId = eid then
        { r with title := title, imageUrl := imageUrl, data := data,
                 updatedAt := now }
      else r)
  else
    st ++ [{ id := DetailCache.freshId st, externalId := eid, title := title,
             imageUrl := imageUrl, data := data,
             createdAt := now, updatedAt := now }]

/-- Combined persisted cache state: the two tables of the cache layer. -/
structure CacheState where
  searches : SearchStore
  recipes : DetailStore
deriving DecidableEq

/-- Maintenance operation purging expired search rows. Modelled from the
spec: deletes all cached_search_queries rows with expiresAt <= now and
returns the deleted count; recipe detail rows are never deleted. -/
def purgeExpiredSearchCache (s : CacheState) (now : Nat) : CacheState × Nat :=
  (⟨s.searches.filter (fun r => ¬ r.expiresAt ≤ now), s.recipes⟩,
   s.searches.countP (fun r => r.expiresAt ≤ now))

/-- Outcome of an upstream client call. Modelled from the spec error
taxonomy: UpstreamError is a definitive provider failure and
UpstreamUnavailable a transient one. -/
inductive UpstreamResult (α : Type) where
  | ok (a : α)
  | upstreamError
  | upstreamUnavailable
deriving DecidableEq

/-- Failure surfaced by the cache layer to its caller. -/
inductive CacheFailure where
  | upstreamError
  | upstreamUnavailable
deriving DecidableEq

/-- Response shape of the search flow: results in stored order, total count
and the served-from-cache indicator. -/
structure SearchResponse where
  resultIds : List Nat
  total : Nat
  cached : Bool
deriving DecidableEq

/-- Search orchestration with persistence failure injection. Modelled from
the spec search flow: CacheLookup, on fresh hit serve cached, on miss or
stale call upstream, on success store and serve with cached = false, on
failure propagate. A persistence read failure is treated as a cache miss; a
persistence write failure is swallowed and the freshly fetched results are
still returned. The third component records whether upstream was called. -/
def searchRecipesP (up : String → Nat → UpstreamResult (List Nat × Nat))
    (st : SearchStore) (now : Nat) (q : String) (lim : Nat)
    (readFails writeFails : Bool) :
    Except CacheFailure SearchResponse × SearchStore × Bool :=
  match if readFails then none else SearchCache.lookup st now q with
  | some (ids, tot) => (Except.ok ⟨ids, tot, true⟩, st, false)
  | none =>
    match up q lim with
    | .ok (ids, tot) =>
        (Except.ok ⟨ids, tot, false⟩,
         if writeFails then st else SearchCache.store st now q ids tot,
         true)
    | .upstreamError => (Except.error .upstreamError, st, true)
    | .upstreamUnavailable => (Except.error .upstreamUnavailable, st, true)

/-- Search orchestration without persistence failures. -/
def searchRecipes (up : String → Nat → UpstreamResult (List Nat × Nat))
    (st : SearchStore) (now : Nat) (q : String) (lim : Nat) :
    Except CacheFailure SearchResponse × SearchStore × Bool :=
  searchRecipesP up st now q lim false false

/-- Detail orchestration with persistence failure injection. Modelled from
the spec detail flow: CacheLookup, on complete hit serve cached, on miss or
incomplete call upstream fetchDetails, on success upsert and serve, on
failure propagate. The boolean in the response records served-from-cache;
the third component records whether upstream was called. -/
def getRecipeDetailsP (fetchDetails : Nat → UpstreamResult RecipeData)
    (st : DetailStore) (now : Nat) (eid : Nat)
    (readFails writeFails : Bool) :
    Except CacheFailure (RecipeData × Bool) × DetailStore × Bool :=
  match if readFails then none else DetailCache.lookup st eid with
  | some r => (Except.ok (r.data, true), st, false)
  | none =>
    match fetchDetails eid with
    | .ok d =>
        (Except.ok (d, false),
         if writeFails then st else DetailCache.upsert st now eid d.title d.image d,
         true)
    | .upstreamError => (Except.error .upstreamError, st, true)
    | .upstreamUnavailable => (Except.error .upstreamUnavailable, st, true)

/-- Detail orchestration without persistence failures. -/
def getRecipeDetails (fetchDetails : Nat → UpstreamResult RecipeData)
    (st : DetailStore) (now : Nat) (eid : Nat) :
    Except CacheFailure (RecipeData × Bool) × DetailStore × Bool :=
  getRecipeDetailsP fetchDetails st now eid false false

/-- Record of one SearchCache.store invocation, used to state properties of
arbitrary sequences of stores. -/
structure StoreCall where
  now : Nat
  query : String
  resultIds : List Nat
  totalResults : Nat

/-- Applies a sequence of store calls to the empty search cache. -/
def SearchCache.applyStores (calls : List StoreCall) : SearchStore :=
  calls.foldl
    (fun st c => SearchCache.store st c.now c.query c.resultIds c.totalResults) []

/-- Invariant of the cached_search_queries table: at most one row per
queryHash value. -/
def atMostOnePerHash (st : SearchStore) : Prop :=
  ∀ h, st.countP (fun r => r.queryHash = h) ≤ 1

/-- Invariant of the cached_recipes table: externalId is unique across
rows. -/
def UniqueEids (st : DetailStore) : Prop :=
  st.Pairwise (fun a b => a.externalId ≠ b.externalId)

/-- Embedding of the JavaScript String.prototype.trim call used by the
frontend handler: removes leading and trailing whitespace. -/
def jsTrim (s : String) : String :=
  ⟨rtrimChars (s.data.dropWhile isWs)⟩

/-- Recipe summary shape consumed by the frontend search component
(components slash RecipeSearch.tsx, interface Recipe). -/
structure FrontendRecipe where
  id : Nat
  title : String
  image : String
deriving DecidableEq

/-- Search response shape consumed by the frontend search component
(components slash RecipeSearch.tsx, interface SearchResponse). -/
structure FrontendSearchResponse where
  results : List FrontendRecipe
  total : Nat
deriving DecidableEq

/-- Component state of RecipeSearch that the submit handler touches: the
query input, the displayed result list, the loading flag and the error
message. -/
structure RecipeSearchState where
  query : String
  recipes : List FrontendRecipe
  loading : Bool
  error : Option String
deriving DecidableEq

/-- Embedding of the searchRecipes submit handler of
components slash RecipeSearch.tsx: after preventDefault, if query.trim()
is falsy the handler returns at once (no state update, no fetch);
otherwise it sets loading and clears the error, issues the HTTP search
request, stores the results on success or the error message on failure,
and finally clears loading. doFetch stands for the awaited round trip:
ok data when response.ok, error message on a thrown or network error. The
returned boolean records whether a request was issued. -/
def handleSearchSubmit (doFetch : String → Except String FrontendSearchResponse)
    (ui : RecipeSearchState) : RecipeSearchState × Bool :=
  if jsTrim ui.query = "" then (ui, false)
  else
    match doFetch ui.query with
    | .ok data =>
        ({ ui with recipes := data.results, loading := false, error := none }, true)
    | .error msg =>
        ({ ui with loading := false, error := some msg }, true)

theorem find?_hash_filter_ne_none (st : SearchStore) (h : String) :
    (st.filter (fun r => r.queryHash ≠ h)).find? (fun r => r.queryHash = h) = none := by
  rw [List.find?_eq_none]
  intro x hx
  rcases List.mem_filter.mp hx with ⟨-, hne⟩
  simpa using of_decide_eq_true hne

theorem lookup_store_same (st : SearchStore) (now t : Nat) (q q' : String)
    (ids : List Nat) (tot : Nat) (hq : queryHash q' = queryHash q) :
    SearchCache.lookup (SearchCache.store st now q ids tot) t q' =
      if t < now + ttlSeconds then some (ids, tot) else none := by
  unfold SearchCache.lookup SearchCache.store
  rw [hq, List.find?_append, find?_hash_filter_ne_none, Option.none_or,
    List.find?_cons_of_pos _ (by simp)]

theorem lookup_hash_congr (st : SearchStore) (t : Nat) (a b : String)
    (hq : queryHash a = queryHash b) :
    SearchCache.lookup st t a = SearchCache.lookup st t b := by
  unfold SearchCache.lookup
  rw [hq]

theorem collapseWs_of_all_ws (l : List Char) (h : ∀ c ∈ l, isWs c) :
    collapseWs true l = [] := by
  induction l with
  | nil => rfl
  | cons c rest ih =>
    have hc : isWs c := h c (List.mem_cons_self c rest)
    simp only [collapseWs, hc, if_true]
    exact ih (fun x hx => h x (List.mem_cons_of_mem c hx))

theorem all_ws_of_collapseWs_all_ws (l : List Char) (b : Bool)
    (h : ∀ c ∈ collapseWs b l, isWs c) : ∀ c ∈ l, isWs c := by
  induction l generalizing b with
  | nil => intro c hc; cases hc
  | cons c rest ih =>
    intro x hx
    by_cases hc : isWs c
    · rcases List.mem_cons.mp hx with rfl | hmem
      · exact hc
      · cases b with
        | true =>
          simp only [collapseWs, hc, if_true] at h
          exact ih true h x hmem
        | false =>
          simp only [collapseWs, hc, if_true, Bool.false_eq_true, if_false] at h
          refine ih true (fun y hy => h y (List.mem_cons_of_mem _ hy)) x hmem
    · exfalso
      have : ¬ isWs c := hc
      simp only [collapseWs, this, Bool.false_eq_true, if_false] at h
      exact hc (h c (List.mem_cons_self _ _))

theorem rtrimChars_eq_nil_iff (l : List Char) :
    rtrimChars l = [] ↔ ∀ c ∈ l, isWs c := by
  unfold rtrimChars
  rw [List.reverse_eq_nil_iff, List.dropWhile_eq_nil_iff]
  constructor
  · intro h c hc
    exact h c (List.mem_reverse.mpr hc)
  · intro h c hc
    exact h c (List.mem_reverse.mp hc)

theorem normChars_eq_nil_iff (l : List Char) :
    normChars l = [] ↔ ∀ c ∈ l, isWs c := by
  unfold normChars
  rw [List.map_eq_nil_iff, rtrimChars_eq_nil_iff]
  constructor
  · exact all_ws_of_collapseWs_all_ws l true
  · intro h c hc
    rw [collapseWs_of_all_ws l h] at hc
    cases hc

theorem normalizeQuery_eq_empty_iff (s : String) :
    normalizeQuery s = "" ↔ ∀ c ∈ s.data, isWs c := by
  rw [← normChars_eq_nil_iff s.data]
  constructor
  · intro h
    have := congrArg String.data h
    simpa [normalizeQuery] using this
  · intro h
    apply String.ext
    simpa [normalizeQuery] using h

theorem jsTrim_eq_empty_iff (s : String) :
    jsTrim s = "" ↔ ∀ c ∈ s.data, isWs c := by
  constructor
  · intro h
    have hd := congrArg String.data h
    simp only [jsTrim] at hd
    have hall : ∀ c ∈ s.data.dropWhile isWs, isWs c :=
      (rtrimChars_eq_nil_iff _).mp hd
    intro c hc
    rw [← List.takeWhile_append_dropWhile isWs s.data] at hc
    rcases List.mem_append.mp hc with htk | hdr
    · exact List.mem_takeWhile_imp htk
    · exact hall c hdr
  · intro h
    apply String.ext
    simp only [jsTrim]
    rw [rtrimChars_eq_nil_iff]
    intro c hc
    exact h c (List.dropWhile_sublist isWs |>.subset hc)

theorem find?_filter_of_countP_le_one {α : Type} (p q : α → Bool) (l : List α)
    (h : l.countP p ≤ 1) :
    (l.filter q).find? p = (l.find? p).bind (fun a => if q a then some a else none) := by
  induction l with
  | nil => rfl
  | cons x xs ih =>
    by_cases hqx : q x = true
    · rw [List.filter_cons_of_pos hqx]
      by_cases hx : p x = true
      · rw [List.find?_cons_of_pos _ hx, List.find?_cons_of_pos _ hx,
          Option.some_bind, if_pos hqx]
      · rw [List.find?_cons_of_neg _ hx, List.find?_cons_of_neg _ hx]
        apply ih
        rw [List.countP_cons_of_neg p xs hx] at h
        exact h
    · rw [List.filter_cons_of_neg hqx]
      by_cases hx : p x = true
      · rw [List.find?_cons_of_pos _ hx, Option.some_bind, if_neg hqx]
        have hzero : xs.countP p = 0 := by
          rw [List.countP_cons_of_pos p xs hx] at h
          omega
        have hnone : xs.find? p = none :=
          List.find?_eq_none.mpr (List.countP_eq_zero.mp hzero)
        rw [ih (by omega), hnone]
        rfl
      · rw [List.find?_cons_of_neg _ hx]
        apply ih
        rw [List.countP_cons_of_neg p xs hx] at h
        exact h

theorem find?_eid_of_unique (st : DetailStore) (r : CachedRecipe) (eid : Nat)
    (hu : UniqueEids st) (hr : r ∈ st) (he : r.externalId = eid) :
    st.find? (fun x => x.externalId = eid) = some r := by
  induction st with
  | nil => cases hr
  | cons x xs ih =>
    rcases List.pairwise_cons.mp hu with ⟨hx, hxs⟩
    rcases List.mem_cons.mp hr with rfl | hmem
    · exact List.find?_cons_of_pos _ (by simp [he])
    · have hne : x.externalId ≠ eid := he ▸ hx r hmem
      rw [List.find?_cons_of_neg _ (by simpa using hne)]
      exact ih hxs hmem

theorem countP_eid_le_one (st : DetailStore) (eid : Nat) (hu : UniqueEids st) :
    st.countP (fun x => x.externalId = eid) ≤ 1 := by
  induction st with
  | nil => simp
  | cons x xs ih =>
    rcases List.pairwise_cons.mp hu with ⟨hx, hxs⟩
    by_cases hxe : x.externalId = eid
    · rw [List.countP_cons_of_pos _ xs (by simpa using hxe)]
      have : xs.countP (fun x => x.externalId = eid) = 0 := by
        rw [List.countP_eq_zero]
        intro a ha
        simp only [decide_eq_true_eq]
        intro hae
        exact hx a ha (hxe.trans hae.symm)
      omega
    · rw [List.countP_cons_of_neg _ xs (by simpa using hxe)]
      exact ih hxs

theorem find?_eid_map_upd (st : DetailStore) (eid : Nat)
    (f : CachedRecipe → CachedRecipe)
    (hf : ∀ r, (f r).externalId = r.externalId) :
    (st.map f).find? (fun x => x.externalId = eid) =
      (st.find? (fun x => x.externalId = eid)).map f := by
  induction st with
  | nil => rfl
  | cons x xs ih =>
    by_cases hx : x.externalId = eid
    · rw [List.map_cons, List.find?_cons_of_pos _ (by simp [hf, hx]),
        List.find?_cons_of_pos _ (by simpa using hx)]
      rfl
    · rw [List.map_cons, List.find?_cons_of_neg _ (by simp [hf, hx]),
        List.find?_cons_of_neg _ (by simpa using hx)]
      exact ih

theorem countP_eid_map_upd (st : DetailStore) (eid : Nat)
    (f : CachedRecipe → CachedRecipe)
    (hf : ∀ r, (f r).externalId = r.externalId) :
    (st.map f).countP (fun x => x.externalId = eid) =
      st.countP (fun x => x.externalId = eid) := by
  induction st with
  | nil => rfl
  | cons x xs ih =>
    by_cases hx : x.externalId = eid
    · rw [List.map_cons, List.countP_cons_of_pos _ _ (by simp [hf, hx]),
        List.countP_cons_of_pos _ _ (by simpa using hx), ih]
    · rw [List.map_cons, List.countP_cons_of_neg _ _ (by simp [hf, hx]),
        List.countP_cons_of_neg _ _ (by simpa using hx), ih]

theorem find?_upsert_self (st : DetailStore) (now eid : Nat) (t i : String)
    (d : RecipeData) :
    ∃ r, (DetailCache.upsert st now eid t i d).find?
        (fun x => x.externalId = eid) = some r ∧
      r.externalId = eid ∧ r.data = d ∧ r ∈ DetailCache.upsert st now eid t i d := by
  unfold DetailCache.upsert
  by_cases hany : st.any (fun r => r.externalId = eid) = true
  · rw [if_pos hany]
    rcases List.any_eq_true.mp hany with ⟨x, hx, hxe⟩
    have hxe' : x.externalId = eid := of_decide_eq_true hxe
    set f : CachedRecipe → CachedRecipe := fun r =>
      if r.externalId = eid then
        { r with title := t, imageUrl := i, data := d, updatedAt := now }
      else r with hfdef
    have hf : ∀ r, (f r).externalId = r.externalId := by
      intro r
      by_cases hre : r.externalId = eid <;> simp [hfdef, hre]
    rw [find?_eid_map_upd st eid f hf]
    have hsome : ∃ y, st.find? (fun x => x.externalId = eid) = some y := by
      cases hfind : st.find? (fun x => x.externalId = eid) with
      | some y => exact ⟨y, rfl⟩
      | none =>
        exact absurd hxe (List.find?_eq_none.mp hfind x hx)
    rcases hsome with ⟨y, hy⟩
    have hye : y.externalId = eid := by
      have hp := List.find?_some hy
      simpa using hp
    refine ⟨f y, by rw [hy]; rfl, ?_, ?_, ?_⟩
    · rw [hf y]; exact hye
    · simp [hfdef, hye]
    · exact List.mem_map_of_mem f (List.mem_of_find?_eq_some hy)
  · rw [if_neg hany]
    refine ⟨{ id := DetailCache.freshId st, externalId := eid, title := t,
              imageUrl := i, data := d, createdAt := now, updatedAt := now },
            ?_, rfl, rfl, ?_⟩
    · rw [List.find?_append]
      have hnone : st.find? (fun x => x.externalId = eid) = none := by
        rw [List.find?_eq_none]
        intro x hx hpx
        exact hany (List.any_eq_true.mpr ⟨x, hx, hpx⟩)
      rw [hnone, Option.none_or, List.find?_cons_of_pos _ (by simp)]
    · exact List.mem_append_right _ (List.mem_cons_self _ _)

theorem store_preserves_atMostOne (st : SearchStore) (now : Nat) (q : String)
    (ids : List Nat) (tot : Nat) (h : atMostOnePerHash st) :
    atMostOnePerHash (SearchCache.store st now q ids tot) := by
  intro hh
  unfold SearchCache.store
  rw [List.countP_append]
  by_cases he : queryHash q = hh
  · have h0 : (st.filter fun r => r.queryHash ≠ queryHash q).countP
        (fun r => r.queryHash = hh) = 0 := by
      rw [List.countP_eq_zero]
      intro a ha
      rcases List.mem_filter.mp ha with ⟨-, hne⟩
      have hne2 : a.queryHash ≠ queryHash q := of_decide_eq_true hne
      simp only [decide_eq_true_eq]
      intro hah
      exact hne2 (he ▸ hah)
    rw [h0]
    simp [List.countP_cons, he]
  · have h1 : (st.filter fun r => r.queryHash ≠ queryHash q).countP
        (fun r => r.queryHash = hh) ≤ 1 :=
      le_trans (List.Sublist.countP_le _ (List.filter_sublist st)) (h hh)
    have h2 : List.countP (fun r => r.queryHash = hh)
        ([{ id := SearchCache.freshId st, query := q, queryHash := queryHash q,
            resultIds := ids, totalResults := tot,
            createdAt := now, expiresAt := now + ttlSeconds }] : SearchStore) = 0 := by
      simp [List.countP_cons, he]
    omega

theorem foldl_store_atMostOne (calls : List StoreCall) (st : SearchStore)
    (h : atMostOnePerHash st) :
    atMostOnePerHash (calls.foldl
      (fun st c => SearchCache.store st c.now c.query c.resultIds c.totalResults) st) := by
  induction calls generalizing st with
  | nil => exact h
  | cons c cs ih => exact ih _ (store_preserves_atMostOne _ _ _ _ _ h)

theorem filter_hash_store (st : SearchStore) (now : Nat) (q : String)
    (ids : List Nat) (tot : Nat) :
    (SearchCache.store st now q ids tot).filter
        (fun x => x.queryHash = queryHash q) =
      [{ id := SearchCache.freshId st, query := q, queryHash := queryHash q,
         resultIds := ids, totalResults := tot, createdAt := now,
         expiresAt := now + ttlSeconds }] := by
  unfold SearchCache.store
  rw [List.filter_append]
  have h1 : (st.filter fun r => r.queryHash ≠ queryHash q).filter
      (fun x => x.queryHash = queryHash q) = [] := by
    rw [List.filter_eq_nil_iff]
    intro a ha
    rcases List.mem_filter.mp ha with ⟨-, hne⟩
    have := of_decide_eq_true hne
    simpa using this
  rw [h1]
  simp

/-- C3: a CachedSearchQuery row stored at time T is a hit at every time
strictly before T + 24h and a miss at every time at or after T + 24h; at
exactly now = expiresAt (= T + 24h) the row is not usable. -/
theorem searchCache_ttl_boundary (st : SearchStore) (T t : Nat) (q : String)
    (ids : List Nat) (tot : Nat) :
    (t < T + ttlSeconds →
      SearchCache.lookup (SearchCache.store st T q ids tot) t q = some (ids, tot)) ∧
    (T + ttlSeconds ≤ t →
      SearchCache.lookup (SearchCache.store st T q ids tot) t q = none) ∧
    SearchCache.lookup (SearchCache.store st T q ids tot) (T + ttlSeconds) q = none := by
  have h := lookup_store_same st T t q q ids tot rfl
  have h2 := lookup_store_same st T (T + ttlSeconds) q q ids tot rfl
  refine ⟨fun hlt => ?_, fun hge => ?_, ?_⟩
  · rw [h, if_pos hlt]
  · rw [h, if_neg (by omega)]
  · rw [h2, if_neg (by omega)]

/-- Witness for C3 at concrete times: a row stored at T = 0 with the 24h
TTL is a hit at 23h59m = 86340s, a miss at 24h00m01s = 86401s, and a miss
at exactly expiresAt = 86400s. -/
theorem searchCache_ttl_boundary_witness :
    SearchCache.lookup (SearchCache.store [] 0 "chicken" [1, 2] 2)
      86340 "chicken" = some ([1, 2], 2) ∧
    SearchCache.lookup (SearchCache.store [] 0 "chicken" [1, 2] 2)
      86401 "chicken" = none ∧
    SearchCache.lookup (SearchCache.store [] 0 "chicken" [1, 2] 2)
      86400 "chicken" = none :=
  ⟨(searchCache_ttl_boundary [] 0 86340 "chicken" [1, 2] 2).1 (by decide),
   (searchCache_ttl_boundary [] 0 86401 "chicken" [1, 2] 2).2.1 (by decide),
   (searchCache_ttl_boundary [] 0 86400 "chicken" [1, 2] 2).2.2⟩

/-- C5: queries that agree after normalization share the queryHash, so
lookup and store address the same cache row; after storing under one
spelling, lookup under any normalization-equal spelling hits that row
while it is fresh. -/
theorem searchCache_normalization (a b : String) (st : SearchStore)
    (now t : Nat) (ids : List Nat) (tot : Nat)
    (h : normalizeQuery a = normalizeQuery b) :
    queryHash a = queryHash b ∧
    SearchCache.lookup (SearchCache.store st now b ids tot) t a =
      SearchCache.lookup (SearchCache.store st now b ids tot) t b ∧
    (t < now + ttlSeconds →
      SearchCache.lookup (SearchCache.store st now b ids tot) t a = some (ids, tot)) := by
  have hq : queryHash a = queryHash b := h
  refine ⟨hq, lookup_hash_congr _ _ _ _ hq, fun hlt => ?_⟩
  rw [lookup_store_same st now t b a ids tot hq, if_pos hlt]

/-- Witness for C5: after store under query pasta, each of the spellings
Pasta, pasta followed by a space, and PASTA hits the stored row. -/
theorem searchCache_normalization_witness :
    SearchCache.lookup (SearchCache.store [] 0 "pasta" [4, 5] 2) 10 "Pasta"
      = some ([4, 5], 2) ∧
    SearchCache.lookup (SearchCache.store [] 0 "pasta" [4, 5] 2) 10 "pasta "
      = some ([4, 5], 2) ∧
    SearchCache.lookup (SearchCache.store [] 0 "pasta" [4, 5] 2) 10 "PASTA"
      = some ([4, 5], 2) :=
  ⟨(searchCache_normalization "Pasta" "pasta" [] 0 10 [4, 5] 2 (by decide)).2.2
      (by decide),
   (searchCache_normalization "pasta " "pasta" [] 0 10 [4, 5] 2 (by decide)).2.2
      (by decide),
   (searchCache_normalization "PASTA" "pasta" [] 0 10 [4, 5] 2 (by decide)).2.2
      (by decide)⟩

/-- C6: any sequence of store calls leaves at most one row per queryHash,
and storing twice for the same normalized query leaves exactly one row for
that hash, holding the second resultIds and totalResults with
createdAt = now and expiresAt = now + 24h of the second call. -/
theorem searchCache_store_replace (calls : List StoreCall) (st : SearchStore)
    (n1 n2 : Nat) (q1 q2 : String) (ids1 ids2 : List Nat) (t1 t2 : Nat)
    (hq : normalizeQuery q1 = normalizeQuery q2) :
    atMostOnePerHash (SearchCache.applyStores calls) ∧
    (∃ r, (SearchCache.store (SearchCache.store st n1 q1 ids1 t1) n2 q2 ids2 t2).filter
        (fun x => x.queryHash = queryHash q2) = [r] ∧
      (SearchCache.store (SearchCache.store st n1 q1 ids1 t1) n2 q2 ids2 t2).filter
        (fun x => x.queryHash = queryHash q1) = [r] ∧
      r.resultIds = ids2 ∧ r.totalResults = t2 ∧
      r.createdAt = n2 ∧ r.expiresAt = n2 + ttlSeconds) := by
  constructor
  · exact foldl_store_atMostOne calls []
      (fun hh => by simp [List.countP_nil])
  · refine ⟨_, filter_hash_store _ n2 q2 ids2 t2, ?_, rfl, rfl, rfl, rfl⟩
    have hqq : queryHash q1 = queryHash q2 := hq
    rw [show (fun (x : CachedSearchQuery) => decide (x.queryHash = queryHash q1))
        = (fun x => decide (x.queryHash = queryHash q2)) from by rw [hqq]]
    exact filter_hash_store _ n2 q2 ids2 t2

/-- Witness for C6: two stores for normalization-equal queries leave one
row carrying the second payload. -/
theorem searchCache_store_replace_witness :
    atMostOnePerHash (SearchCache.applyStores [⟨0, "pasta", [1], 1⟩]) ∧
    (∃ r, (SearchCache.store (SearchCache.store [] 0 "pasta" [1] 1) 5 "PASTA" [2, 3] 2).filter
        (fun x => x.queryHash = queryHash "PASTA") = [r] ∧
      (SearchCache.store (SearchCache.store [] 0 "pasta" [1] 1) 5 "PASTA" [2, 3] 2).filter
        (fun x => x.queryHash = queryHash "pasta") = [r] ∧
      r.resultIds = [2, 3] ∧ r.totalResults = 2 ∧
      r.createdAt = 5 ∧ r.expiresAt = 5 + ttlSeconds) :=
  searchCache_store_replace [⟨0, "pasta", [1], 1⟩] [] 0 5 "pasta" "PASTA"
    [1] [2, 3] 1 2 (by decide)

/-- C8: purgeExpired removes exactly the expired search rows and returns
their count, is idempotent, leaves the recipe table untouched, and does not
change the outcome of any lookup performed at the same time. -/
theorem purgeExpired_correct (s : CacheState) (now : Nat) :
    (∀ r, r ∈ (purgeExpiredSearchCache s now).1.searches ↔
        r ∈ s.searches ∧ ¬ r.expiresAt ≤ now) ∧
    (purgeExpiredSearchCache s now).2 =
        s.searches.countP (fun r => r.expiresAt ≤ now) ∧
    purgeExpiredSearchCache (purgeExpiredSearchCache s now).1 now =
        ((purgeExpiredSearchCache s now).1, 0) ∧
    (purgeExpiredSearchCache s now).1.recipes = s.recipes ∧
    (∀ q, atMostOnePerHash s.searches →
        SearchCache.lookup (purgeExpiredSearchCache s now).1.searches now q =
          SearchCache.lookup s.searches now q) := by
  refine ⟨?_, rfl, ?_, rfl, ?_⟩
  · intro r
    unfold purgeExpiredSearchCache
    simp only [List.mem_filter, decide_eq_true_eq]
  · unfold purgeExpiredSearchCache
    simp only [Prod.mk.injEq, CacheState.mk.injEq, and_true, true_and]
    refine ⟨?_, ?_⟩
    · rw [List.filter_filter]
      apply List.filter_congr
      intro a ha
      simp
    · rw [List.countP_eq_zero]
      intro a ha
      rcases List.mem_filter.mp ha with ⟨-, hkeep⟩
      have hkeep2 : ¬ a.expiresAt ≤ now := of_decide_eq_true hkeep
      simpa using hkeep2
  · intro q hinv
    unfold purgeExpiredSearchCache SearchCache.lookup
    rw [find?_filter_of_countP_le_one _ _ _ (hinv (queryHash q))]
    cases hfind : s.searches.find? (fun r => r.queryHash = queryHash q) with
    | none => rfl
    | some r =>
      simp only [Option.some_bind]
      by_cases hk : r.expiresAt ≤ now
      · rw [if_neg (by simpa using hk), if_neg (by omega)]
      · rw [if_pos (by simpa using hk)]

/-- Witness for C8 on a concrete state with two expired rows and one fresh
row at now = 90000: exactly the two expired rows are gone, the count is 2,
and the fresh row is still retrievable by lookup. -/
theorem purgeExpired_correct_witness :
    (purgeExpiredSearchCache
        ⟨SearchCache.applyStores
          [⟨0, "a", [1], 1⟩, ⟨100, "b", [2], 1⟩, ⟨80000, "c", [3], 1⟩],
         []⟩ 90000).2 = 2 ∧
    SearchCache.lookup (purgeExpiredSearchCache
        ⟨SearchCache.applyStores
          [⟨0, "a", [1], 1⟩, ⟨100, "b", [2], 1⟩, ⟨80000, "c", [3], 1⟩],
         []⟩ 90000).1.searches 90000 "c" = some ([3], 1) := by
  have hinv : atMostOnePerHash (SearchCache.applyStores
      [⟨0, "a", [1], 1⟩, ⟨100, "b", [2], 1⟩, ⟨80000, "c", [3], 1⟩]) :=
    foldl_store_atMostOne _ [] (fun hh => by simp [List.countP_nil])
  constructor
  · exact (purgeExpired_correct _ 90000).2.1.trans (by decide)
  · exact ((purgeExpired_correct _ 90000).2.2.2.2 "c" hinv).trans (by decide)

theorem detail_lookup_some_inv (st : DetailStore) (eid : Nat) (r : CachedRecipe)
    (h : DetailCache.lookup st eid = some r) :
    r ∈ st ∧ r.externalId = eid ∧ r.data.nutrition ≠ [] := by
  unfold DetailCache.lookup at h
  cases hfind : st.find? (fun x => x.externalId = eid) with
  | none => rw [hfind] at h; cases h
  | some r0 =>
    rw [hfind] at h
    have h2 : (if r0.data.complete = true then some r0 else none) = some r := h
    by_cases hc : r0.data.complete = true
    · rw [if_pos hc] at h2
      obtain rfl : r0 = r := by injection h2
      refine ⟨List.mem_of_find?_eq_some hfind, ?_, ?_⟩
      · have := List.find?_some hfind
        simpa using this
      · simpa [RecipeData.complete, List.isEmpty_iff] using hc
    · rw [if_neg hc] at h2
      cases h2

theorem upsert_existing_find? (st : DetailStore) (now eid : Nat)
    (t i : String) (d : RecipeData) (r : CachedRecipe)
    (hu : UniqueEids st) (hr : r ∈ st) (he : r.externalId = eid) :
    (DetailCache.upsert st now eid t i d).find? (fun x => x.externalId = eid) =
      some { r with title := t, imageUrl := i, data := d, updatedAt := now } := by
  unfold DetailCache.upsert
  have hany : st.any (fun x => x.externalId = eid) = true :=
    List.any_eq_true.mpr ⟨r, hr, by simpa using he⟩
  rw [if_pos hany]
  set f : CachedRecipe → CachedRecipe := fun x =>
    if x.externalId = eid then
      { x with title := t, imageUrl := i, data := d, updatedAt := now }
    else x with hfdef
  have hf : ∀ x, (f x).externalId = x.externalId := by
    intro x
    by_cases hxe : x.externalId = eid <;> simp [hfdef, hxe]
  rw [find?_eid_map_upd st eid f hf, find?_eid_of_unique st r eid hu hr he]
  simp [hfdef, he]

theorem upsert_preserves_unique (st : DetailStore) (now eid : Nat)
    (t i : String) (d : RecipeData) (hu : UniqueEids st) :
    UniqueEids (DetailCache.upsert st now eid t i d) := by
  unfold UniqueEids at hu ⊢
  unfold DetailCache.upsert
  by_cases hany : st.any (fun r => r.externalId = eid) = true
  · rw [if_pos hany]
    have hfa : ∀ x : CachedRecipe,
        ((if x.externalId = eid then
            { x with title := t, imageUrl := i, data := d, updatedAt := now }
          else x) : CachedRecipe).externalId = x.externalId := by
      intro x
      by_cases hxe : x.externalId = eid <;> simp [hxe]
    refine List.Pairwise.map _ (fun a b hab => ?_) hu
    simpa [hfa] using hab
  · rw [if_neg hany, List.pairwise_append]
    refine ⟨hu, List.pairwise_singleton _ _, ?_⟩
    intro a ha b hb
    rcases List.mem_singleton.mp hb with rfl
    intro hcontra
    exact hany (List.any_eq_true.mpr ⟨a, ha, by simpa using hcontra⟩)

/-- C2: a detail lookup is a hit exactly when a row for the externalId
exists whose data carries a non-empty nutrition block; a physically present
row without nutrition is a miss, a subsequent upsert with nutrition turns
the lookup into a hit carrying that data, and no lookup ever returns an
incomplete row. -/
theorem detailCache_completeness_gate (st : DetailStore) (eid now1 now2 : Nat)
    (t1 i1 t2 i2 : String) (d1 d2 : RecipeData) :
    (UniqueEids st →
      ((∃ r, DetailCache.lookup st eid = some r) ↔
        ∃ r ∈ st, r.externalId = eid ∧ r.data.nutrition ≠ [])) ∧
    (∀ (st2 : DetailStore) (e2 : Nat) (r : CachedRecipe),
      DetailCache.lookup st2 e2 = some r →
        r ∈ st2 ∧ r.externalId = e2 ∧ r.data.nutrition ≠ []) ∧
    (d1.nutrition = [] →
      DetailCache.lookup (DetailCache.upsert st now1 eid t1 i1 d1) eid = none ∧
      ∃ r ∈ DetailCache.upsert st now1 eid t1 i1 d1, r.externalId = eid) ∧
    (d2.nutrition ≠ [] →
      ∃ r, DetailCache.lookup
          (DetailCache.upsert (DetailCache.upsert st now1 eid t1 i1 d1)
            now2 eid t2 i2 d2) eid = some r ∧ r.data = d2) := by
  refine ⟨?_, fun st2 e2 r h => detail_lookup_some_inv st2 e2 r h, ?_, ?_⟩
  · intro hu
    constructor
    · rintro ⟨r, hr⟩
      rcases detail_lookup_some_inv st eid r hr with ⟨hmem, heid, hnut⟩
      exact ⟨r, hmem, heid, hnut⟩
    · rintro ⟨r, hmem, heid, hnut⟩
      refine ⟨r, ?_⟩
      unfold DetailCache.lookup
      rw [find?_eid_of_unique st r eid hu hmem heid]
      show (if r.data.complete = true then some r else none) = some r
      rw [if_pos (by simp [RecipeData.complete, List.isEmpty_iff, hnut])]
  · intro hnil
    rcases find?_upsert_self st now1 eid t1 i1 d1 with ⟨r, hfind, heid, hdata, hmem⟩
    constructor
    · unfold DetailCache.lookup
      rw [hfind]
      show (if r.data.complete = true then some r else none) = none
      rw [if_neg (by simp [RecipeData.complete, hdata, hnil])]
    · exact ⟨r, hmem, heid⟩
  · intro hnn
    rcases find?_upsert_self (DetailCache.upsert st now1 eid t1 i1 d1)
        now2 eid t2 i2 d2 with ⟨r, hfind, heid, hdata, hmem⟩
    refine ⟨r, ?_, hdata⟩
    unfold DetailCache.lookup
    rw [hfind]
    show (if r.data.complete = true then some r else none) = some r
    rw [if_pos (by simp [RecipeData.complete, List.isEmpty_iff, hdata, hnn])]

/-- Witness for C2 at externalId 12345: an upsert without nutrition leaves
a physically present row that lookup misses; a second upsert with a
nutrition block makes lookup hit with that data. -/
theorem detailCache_completeness_gate_witness :
    (DetailCache.lookup
        (DetailCache.upsert [] 5 12345 "Cake" "img" ⟨"Cake", "img", [], "raw"⟩)
        12345 = none ∧
      ∃ r ∈ DetailCache.upsert [] 5 12345 "Cake" "img" ⟨"Cake", "img", [], "raw"⟩,
        r.externalId = 12345) ∧
    (∃ r, DetailCache.lookup
        (DetailCache.upsert
          (DetailCache.upsert [] 5 12345 "Cake" "img" ⟨"Cake", "img", [], "raw"⟩)
          6 12345 "Cake" "img" ⟨"Cake", "img", ["Calories"], "raw"⟩)
        12345 = some r ∧ r.data = ⟨"Cake", "img", ["Calories"], "raw"⟩) :=
  ⟨(detailCache_completeness_gate [] 12345 5 6 "Cake" "img" "Cake" "img"
      ⟨"Cake", "img", [], "raw"⟩ ⟨"Cake", "img", ["Calories"], "raw"⟩).2.2.1 rfl,
   (detailCache_completeness_gate [] 12345 5 6 "Cake" "img" "Cake" "img"
      ⟨"Cake", "img", [], "raw"⟩ ⟨"Cake", "img", ["Calories"], "raw"⟩).2.2.2
      (by simp)⟩

theorem countP_upsert_eid (st : DetailStore) (now eid : Nat) (t i : String)
    (d : RecipeData) :
    (DetailCache.upsert st now eid t i d).countP (fun x => x.externalId = eid) =
      max (st.countP (fun x => x.externalId = eid)) 1 := by
  unfold DetailCache.upsert
  by_cases hany : st.any (fun r => r.externalId = eid) = true
  · rw [if_pos hany]
    set f : CachedRecipe → CachedRecipe := fun x =>
      if x.externalId = eid then
        { x with title := t, imageUrl := i, data := d, updatedAt := now }
      else x with hfdef
    have hf : ∀ x, (f x).externalId = x.externalId := by
      intro x
      by_cases hxe : x.externalId = eid <;> simp [hfdef, hxe]
    rw [countP_eid_map_upd st eid f hf]
    rcases List.any_eq_true.mp hany with ⟨x, hx, hxe⟩
    have hpos : 0 < st.countP (fun x => x.externalId = eid) :=
      List.countP_pos_iff.mpr ⟨x, hx, hxe⟩
    omega
  · rw [if_neg hany, List.countP_append]
    have h0 : st.countP (fun x => x.externalId = eid) = 0 := by
      rw [List.countP_eq_zero]
      intro a ha hpa
      exact hany (List.any_eq_true.mpr ⟨a, ha, hpa⟩)
    rw [h0]
    simp [List.countP_cons]

/-- C7: an upsert on an existing row overwrites exactly title, imageUrl,
data and updatedAt while preserving the surrogate id and createdAt; a
second upsert for the same externalId never produces a second row and
still preserves id and createdAt; rows for other externalIds are neither
removed nor modified. -/
theorem detailCache_upsert_frame (st : DetailStore) (now1 now2 eid : Nat)
    (t1 i1 t2 i2 : String) (d1 d2 : RecipeData) :
    (∀ r, UniqueEids st → r ∈ st → r.externalId = eid →
      (DetailCache.upsert st now1 eid t1 i1 d1).find? (fun x => x.externalId = eid) =
        some { r with title := t1, imageUrl := i1, data := d1, updatedAt := now1 }) ∧
    (∀ r, UniqueEids st → r ∈ st → r.externalId = eid →
      (DetailCache.upsert (DetailCache.upsert st now1 eid t1 i1 d1)
          now2 eid t2 i2 d2).find? (fun x => x.externalId = eid) =
        some { r with title := t2, imageUrl := i2, data := d2, updatedAt := now2 }) ∧
    ((∀ x ∈ st, x.externalId ≠ eid) →
      (DetailCache.upsert (DetailCache.upsert st now1 eid t1 i1 d1)
          now2 eid t2 i2 d2).find? (fun x => x.externalId = eid) =
        some { id := DetailCache.freshId st, externalId := eid, title := t2,
               imageUrl := i2, data := d2, createdAt := now1, updatedAt := now2 }) ∧
    (UniqueEids st →
      (DetailCache.upsert (DetailCache.upsert st now1 eid t1 i1 d1)
          now2 eid t2 i2 d2).countP (fun x => x.externalId = eid) = 1) ∧
    (∀ r, r.externalId ≠ eid →
      (r ∈ DetailCache.upsert st now1 eid t1 i1 d1 ↔ r ∈ st)) := by
  refine ⟨?_, ?_, ?_, ?_, ?_⟩
  · intro r hu hr he
    exact upsert_existing_find? st now1 eid t1 i1 d1 r hu hr he
  · intro r hu hr he
    have hu1 := upsert_preserves_unique st now1 eid t1 i1 d1 hu
    have hfind1 := upsert_existing_find? st now1 eid t1 i1 d1 r hu hr he
    have hmem1 := List.mem_of_find?_eq_some hfind1
    have h2 := upsert_existing_find? (DetailCache.upsert st now1 eid t1 i1 d1)
      now2 eid t2 i2 d2 _ hu1 hmem1 he
    exact h2
  · intro hne
    have hany1 : st.any (fun r => r.externalId = eid) = false := by
      rw [List.any_eq_false]
      intro x hx
      simpa using hne x hx
    have hup1 : DetailCache.upsert st now1 eid t1 i1 d1 =
        st ++ [{ id := DetailCache.freshId st, externalId := eid, title := t1,
                 imageUrl := i1, data := d1, createdAt := now1, updatedAt := now1 }] := by
      unfold DetailCache.upsert
      rw [if_neg (by simp [hany1])]
    have hfind1 : (st ++
        ([{ id := DetailCache.freshId st, externalId := eid, title := t1,
            imageUrl := i1, data := d1, createdAt := now1,
            updatedAt := now1 }] : DetailStore)).find? (fun x => x.externalId = eid) =
        some { id := DetailCache.freshId st, externalId := eid, title := t1,
               imageUrl := i1, data := d1, createdAt := now1, updatedAt := now1 } := by
      rw [List.find?_append]
      have hnone : st.find? (fun x => x.externalId = eid) = none := by
        rw [List.find?_eq_none]
        intro x hx
        simpa using hne x hx
      rw [hnone, Option.none_or, List.find?_cons_of_pos _ (by simp)]
    have hany2 : (st ++
        ([{ id := DetailCache.freshId st, externalId := eid, title := t1,
            imageUrl := i1, data := d1, createdAt := now1,
            updatedAt := now1 }] : DetailStore)).any (fun r => r.externalId = eid) = true :=
      List.any_eq_true.mpr
        ⟨_, List.mem_append_right _ (List.mem_cons_self _ _), by simp⟩
    rw [hup1]
    unfold DetailCache.upsert
    rw [if_pos hany2]
    set f : CachedRecipe → CachedRecipe := fun x =>
      if x.externalId = eid then
        { x with title := t2, imageUrl := i2, data := d2, updatedAt := now2 }
      else x with hfdef
    have hf : ∀ x, (f x).externalId = x.externalId := by
      intro x
      by_cases hxe : x.externalId = eid <;> simp [hfdef, hxe]
    rw [find?_eid_map_upd _ eid f hf, hfind1]
    simp [hfdef]
  · intro hu
    have hc1 := countP_upsert_eid st now1 eid t1 i1 d1
    have hc2 := countP_upsert_eid (DetailCache.upsert st now1 eid t1 i1 d1)
      now2 eid t2 i2 d2
    have hle := countP_eid_le_one st eid hu
    omega
  · intro r hre
    unfold DetailCache.upsert
    by_cases hany : st.any (fun x => x.externalId = eid) = true
    · rw [if_pos hany]
      constructor
      · intro hmem
        rcases List.mem_map.mp hmem with ⟨x, hx, hfx⟩
        by_cases hxe : x.externalId = eid
        · exfalso
          apply hre
          rw [← hfx]
          simp [hxe]
        · rw [← hfx]
          simpa [hxe] using hx
      · intro hmem
        refine List.mem_map.mpr ⟨r, hmem, ?_⟩
        simp [hre]
    · rw [if_neg hany]
      constructor
      · intro hmem
        rcases List.mem_append.mp hmem with h | h
        · exact h
        · rcases List.mem_singleton.mp h with rfl
          exact absurd rfl hre
      · intro hmem
        exact List.mem_append_left _ hmem

/-- Witness for C7: updating externalId 7 twice keeps a single row with
the original id and createdAt while carrying the second payload. -/
theorem detailCache_upsert_frame_witness :
    (DetailCache.upsert
        (DetailCache.upsert [] 10 7 "A" "a" ⟨"A", "a", ["Fat"], "x"⟩)
        20 7 "B" "b" ⟨"B", "b", ["Protein"], "y"⟩).find?
      (fun x => x.externalId = 7) =
      some { id := DetailCache.freshId [], externalId := 7, title := "B",
             imageUrl := "b", data := ⟨"B", "b", ["Protein"], "y"⟩,
             createdAt := 10, updatedAt := 20 } ∧
    (DetailCache.upsert (DetailCache.upsert [] 10 7 "A" "a" ⟨"A", "a", ["Fat"], "x"⟩)
        20 7 "B" "b" ⟨"B", "b", ["Protein"], "y"⟩).countP
      (fun x => x.externalId = 7) = 1 :=
  ⟨(detailCache_upsert_frame [] 10 20 7 "A" "a" "B" "b"
      ⟨"A", "a", ["Fat"], "x"⟩ ⟨"B", "b", ["Protein"], "y"⟩).2.2.1
      (by intro x hx; cases hx),
   (detailCache_upsert_frame [] 10 20 7 "A" "a" "B" "b"
      ⟨"A", "a", ["Fat"], "x"⟩ ⟨"B", "b", ["Protein"], "y"⟩).2.2.2.1
      List.Pairwise.nil⟩

/-- C4: on a cache miss (including a stale search row or an incomplete
detail row, both of which the lookups report as a miss), an upstream
failure is propagated unchanged to the caller, with the cache state
untouched; neither flow substitutes stale or empty data for the error. -/
theorem upstream_failure_propagates
    (up : String → Nat → UpstreamResult (List Nat × Nat))
    (fd : Nat → UpstreamResult RecipeData)
    (st : SearchStore) (dst : DetailStore) (now q2 : Nat) (q : String)
    (lim eid : Nat) :
    (SearchCache.lookup st now q = none → up q lim = .upstreamError →
      searchRecipes up st now q lim = (Except.error .upstreamError, st, true)) ∧
    (SearchCache.lookup st now q = none → up q lim = .upstreamUnavailable →
      searchRecipes up st now q lim = (Except.error .upstreamUnavailable, st, true)) ∧
    (DetailCache.lookup dst eid = none → fd eid = .upstreamError →
      getRecipeDetails fd dst q2 eid = (Except.error .upstreamError, dst, true)) ∧
    (DetailCache.lookup dst eid = none → fd eid = .upstreamUnavailable →
      getRecipeDetails fd dst q2 eid = (Except.error .upstreamUnavailable, dst, true)) := by
  refine ⟨fun h1 h2 => ?_, fun h1 h2 => ?_, fun h1 h2 => ?_, fun h1 h2 => ?_⟩ <;>
    simp [searchRecipes, searchRecipesP, getRecipeDetails, getRecipeDetailsP, h1, h2]

/-- Witness for C4: with an empty cache both failure kinds are surfaced by
both flows. -/
theorem upstream_failure_propagates_witness :
    searchRecipes (fun _ _ => .upstreamError) [] 0 "kale" 10 =
      (Except.error .upstreamError, [], true) ∧
    searchRecipes (fun _ _ => .upstreamUnavailable) [] 0 "kale" 10 =
      (Except.error .upstreamUnavailable, [], true) ∧
    getRecipeDetails (fun _ => .upstreamError) [] 0 12345 =
      (Except.error .upstreamError, [], true) ∧
    getRecipeDetails (fun _ => .upstreamUnavailable) [] 0 12345 =
      (Except.error .upstreamUnavailable, [], true) :=
  ⟨(upstream_failure_propagates (fun _ _ => .upstreamError)
      (fun _ => .upstreamError) [] [] 0 0 "kale" 10 12345).1 rfl rfl,
   (upstream_failure_propagates (fun _ _ => .upstreamUnavailable)
      (fun _ => .upstreamUnavailable) [] [] 0 0 "kale" 10 12345).2.1 rfl rfl,
   (upstream_failure_propagates (fun _ _ => .upstreamError)
      (fun _ => .upstreamError) [] [] 0 0 "kale" 10 12345).2.2.1 rfl rfl,
   (upstream_failure_propagates (fun _ _ => .upstreamUnavailable)
      (fun _ => .upstreamUnavailable) [] [] 0 0 "kale" 10 12345).2.2.2 rfl rfl⟩

/-- C9: persistence failures are soft. A read failure makes both flows
behave exactly as on a cache miss (upstream is fetched, and the run agrees
with the failure-free run whenever the lookup misses anyway); a write
failure changes neither the response nor the upstream indicator and leaves
the store untouched; and whenever upstream succeeds the request succeeds
under every combination of persistence failures. -/
theorem persistence_error_is_soft
    (up : String → Nat → UpstreamResult (List Nat × Nat))
    (fd : Nat → UpstreamResult RecipeData)
    (st : SearchStore) (dst : DetailStore) (now : Nat) (q : String)
    (lim eid : Nat) (rf wf : Bool) :
    ((searchRecipesP up st now q lim true wf).2.2 = true) ∧
    (SearchCache.lookup st now q = none →
      searchRecipesP up st now q lim true wf =
        searchRecipesP up st now q lim false wf) ∧
    ((searchRecipesP up st now q lim rf true).1 =
      (searchRecipesP up st now q lim rf false).1) ∧
    ((searchRecipesP up st now q lim rf true).2.2 =
      (searchRecipesP up st now q lim rf false).2.2) ∧
    ((searchRecipesP up st now q lim rf true).2.1 = st) ∧
    (∀ ids tot, up q lim = .ok (ids, tot) → ∀ rf2 wf2 : Bool,
      ∃ resp, (searchRecipesP up st now q lim rf2 wf2).1 = Except.ok resp) ∧
    ((getRecipeDetailsP fd dst now eid true wf).2.2 = true) ∧
    (DetailCache.lookup dst eid = none →
      getRecipeDetailsP fd dst now eid true wf =
        getRecipeDetailsP fd dst now eid false wf) ∧
    ((getRecipeDetailsP fd dst now eid rf true).1 =
      (getRecipeDetailsP fd dst now eid rf false).1) ∧
    ((getRecipeDetailsP fd dst now eid rf true).2.1 = dst) ∧
    (∀ d, fd eid = .ok d → ∀ rf2 wf2 : Bool,
      ∃ resp, (getRecipeDetailsP fd dst now eid rf2 wf2).1 = Except.ok resp) := by
  refine ⟨?_, ?_, ?_, ?_, ?_, ?_, ?_, ?_, ?_, ?_, ?_⟩
  · cases hu : up q lim with
    | ok p => rcases p with ⟨ids, tot⟩; simp [searchRecipesP, hu]
    | upstreamError => simp [searchRecipesP, hu]
    | upstreamUnavailable => simp [searchRecipesP, hu]
  · intro h1
    simp [searchRecipesP, h1]
  · cases rf with
    | true =>
      cases hu : up q lim with
      | ok p => rcases p with ⟨ids, tot⟩; simp [searchRecipesP, hu]
      | upstreamError => simp [searchRecipesP, hu]
      | upstreamUnavailable => simp [searchRecipesP, hu]
    | false =>
      cases hl : SearchCache.lookup st now q with
      | some p => rcases p with ⟨ids, tot⟩; simp [searchRecipesP, hl]
      | none =>
        cases hu : up q lim with
        | ok p => rcases p with ⟨ids, tot⟩; simp [searchRecipesP, hl, hu]
        | upstreamError => simp [searchRecipesP, hl, hu]
        | upstreamUnavailable => simp [searchRecipesP, hl, hu]
  · cases rf with
    | true =>
      cases hu : up q lim with
      | ok p => rcases p with ⟨ids, tot⟩; simp [searchRecipesP, hu]
      | upstreamError => simp [searchRecipesP, hu]
      | upstreamUnavailable => simp [searchRecipesP, hu]
    | false =>
      cases hl : SearchCache.lookup st now q with
      | some p => rcases p with ⟨ids, tot⟩; simp [searchRecipesP, hl]
      | none =>
        cases hu : up q lim with
        | ok p => rcases p with ⟨ids, tot⟩; simp [searchRecipesP, hl, hu]
        | upstreamError => simp [searchRecipesP, hl, hu]
        | upstreamUnavailable => simp [searchRecipesP, hl, hu]
  · cases rf with
    | true =>
      cases hu : up q lim with
      | ok p => rcases p with ⟨ids, tot⟩; simp [searchRecipesP, hu]
      | upstreamError => simp [searchRecipesP, hu]
      | upstreamUnavailable => simp [searchRecipesP, hu]
    | false =>
      cases hl : SearchCache.lookup st now q with
      | some p => rcases p with ⟨ids, tot⟩; simp [searchRecipesP, hl]
      | none =>
        cases hu : up q lim with
        | ok p => rcases p with ⟨ids, tot⟩; simp [searchRecipesP, hl, hu]
        | upstreamError => simp [searchRecipesP, hl, hu]
        | upstreamUnavailable => simp [searchRecipesP, hl, hu]
  · intro ids tot hu rf2 wf2
    cases rf2 with
    | true => exact ⟨⟨ids, tot, false⟩, by simp [searchRecipesP, hu]⟩
    | false =>
      cases hl : SearchCache.lookup st now q with
      | some p =>
        rcases p with ⟨ids2, tot2⟩
        exact ⟨⟨ids2, tot2, true⟩, by simp [searchRecipesP, hl]⟩
      | none => exact ⟨⟨ids, tot, false⟩, by simp [searchRecipesP, hl, hu]⟩
  · cases hu : fd eid with
    | ok d => simp [getRecipeDetailsP, hu]
    | upstreamError => simp [getRecipeDetailsP, hu]
    | upstreamUnavailable => simp [getRecipeDetailsP, hu]
  · intro h1
    simp [getRecipeDetailsP, h1]
  · cases rf with
    | true =>
      cases hu : fd eid with
      | ok d => simp [getRecipeDetailsP, hu]
      | upstreamError => simp [getRecipeDetailsP, hu]
      | upstreamUnavailable => simp [getRecipeDetailsP, hu]
    | false =>
      cases hl : DetailCache.lookup dst eid with
      | some r => simp [getRecipeDetailsP, hl]
      | none =>
        cases hu : fd eid with
        | ok d => simp [getRecipeDetailsP, hl, hu]
        | upstreamError => simp [getRecipeDetailsP, hl, hu]
        | upstreamUnavailable => simp [getRecipeDetailsP, hl, hu]
  · cases rf with
    | true =>
      cases hu : fd eid with
      | ok d => simp [getRecipeDetailsP, hu]
      | upstreamError => simp [getRecipeDetailsP, hu]
      | upstreamUnavailable => simp [getRecipeDetailsP, hu]
    | false =>
      cases hl : DetailCache.lookup dst eid with
      | some r => simp [getRecipeDetailsP, hl]
      | none =>
        cases hu : fd eid with
        | ok d => simp [getRecipeDetailsP, hl, hu]
        | upstreamError => simp [getRecipeDetailsP, hl, hu]
        | upstreamUnavailable => simp [getRecipeDetailsP, hl, hu]
  · intro d hu rf2 wf2
    cases rf2 with
    | true => exact ⟨(d, false), by simp [getRecipeDetailsP, hu]⟩
    | false =>
      cases hl : DetailCache.lookup dst eid with
      | some r => exact ⟨(r.data, true), by simp [getRecipeDetailsP, hl]⟩
      | none => exact ⟨(d, false), by simp [getRecipeDetailsP, hl, hu]⟩

/-- Witness for C9: with a read failure the search still succeeds from
upstream, and with a write failure the store is left untouched. -/
theorem persistence_error_is_soft_witness :
    (searchRecipesP (fun _ _ => .ok ([7], 1)) [] 0 "soup" 10 true false).2.2 = true ∧
    searchRecipesP (fun _ _ => .ok ([7], 1)) [] 0 "soup" 10 true false =
      searchRecipesP (fun _ _ => .ok ([7], 1)) [] 0 "soup" 10 false false ∧
    (searchRecipesP (fun _ _ => .ok ([7], 1)) [] 0 "soup" 10 false true).2.1 = [] ∧
    (∃ resp, (searchRecipesP (fun _ _ => .ok ([7], 1)) [] 0 "soup" 10 true true).1 =
      Except.ok resp) ∧
    (getRecipeDetailsP (fun _ => .ok ⟨"T", "u", ["Fat"], "z"⟩) [] 0 8 false true).2.1 = [] :=
  ⟨(persistence_error_is_soft (fun _ _ => .ok ([7], 1))
      (fun _ => .ok ⟨"T", "u", ["Fat"], "z"⟩) [] [] 0 "soup" 10 8 true false).1,
   (persistence_error_is_soft (fun _ _ => .ok ([7], 1))
      (fun _ => .ok ⟨"T", "u", ["Fat"], "z"⟩) [] [] 0 "soup" 10 8 true false).2.1 rfl,
   (persistence_error_is_soft (fun _ _ => .ok ([7], 1))
      (fun _ => .ok ⟨"T", "u", ["Fat"], "z"⟩) [] [] 0 "soup" 10 8 false true).2.2.2.2.1,
   (persistence_error_is_soft (fun _ _ => .ok ([7], 1))
      (fun _ => .ok ⟨"T", "u", ["Fat"], "z"⟩) [] [] 0 "soup" 10 8 true true).2.2.2.2.2.1
      [7] 1 rfl true true,
   (persistence_error_is_soft (fun _ _ => .ok ([7], 1))
      (fun _ => .ok ⟨"T", "u", ["Fat"], "z"⟩) [] [] 0 "soup" 10 8 false true).2.2.2.2.2.2.2.2.2.1⟩

theorem search_first_call_inv
    (up : String → Nat → UpstreamResult (List Nat × Nat))
    (st st2 : SearchStore) (T lim : Nat) (q : String)
    (rids : List Nat) (rtot : Nat) (rc : Bool)
    (h1 : searchRecipes up st T q lim = (Except.ok ⟨rids, rtot, rc⟩, st2, true)) :
    up q lim = .ok (rids, rtot) ∧
    st2 = SearchCache.store st T q rids rtot ∧ rc = false := by
  unfold searchRecipes searchRecipesP at h1
  cases hl : SearchCache.lookup st T q with
  | some p =>
    rcases p with ⟨ids, tot⟩
    rw [hl] at h1
    simp at h1
  | none =>
    rw [hl] at h1
    cases hu : up q lim with
    | ok p =>
      rcases p with ⟨ids, tot⟩
      rw [hu] at h1
      simp at h1
      rcases h1 with ⟨⟨hids, htot, hcached⟩, hst⟩
      subst hids htot
      exact ⟨rfl, hst.symm, hcached⟩
    | upstreamError =>
      rw [hu] at h1
      simp at h1
    | upstreamUnavailable =>
      rw [hu] at h1
      simp at h1

/-- C1: a search answered from upstream (cached = false) at time T makes a
repeat of the same query before T + 24h serve from cache: no upstream call,
cached = true, the same resultIds in the same order, and an unchanged
store; moreover every cache hit returns exactly the stored resultIds order
of its row, with no re-sorting. -/
theorem search_cached_roundtrip
    (up : String → Nat → UpstreamResult (List Nat × Nat))
    (st st2 : SearchStore) (T T2 lim lim2 : Nat) (q : String)
    (resp : SearchResponse)
    (h1 : searchRecipes up st T q lim = (Except.ok resp, st2, true))
    (hc : resp.cached = false)
    (hT : T2 < T + ttlSeconds) :
    searchRecipes up st2 T2 q lim2 =
      (Except.ok { resultIds := resp.resultIds, total := resp.total,
                   cached := true }, st2, false) ∧
    (∀ (st3 : SearchStore) (n3 : Nat) (q3 : String) (ids3 : List Nat) (tot3 : Nat),
      SearchCache.lookup st3 n3 q3 = some (ids3, tot3) →
      ∃ row ∈ st3, row.queryHash = queryHash q3 ∧
        ids3 = row.resultIds ∧ tot3 = row.totalResults) := by
  obtain ⟨rids, rtot, rc⟩ := resp
  rcases search_first_call_inv up st st2 T lim q rids rtot rc h1 with ⟨hu, hst, -⟩
  subst hst
  constructor
  · have hl2 : SearchCache.lookup (SearchCache.store st T q rids rtot) T2 q =
        some (rids, rtot) := by
      rw [lookup_store_same st T T2 q q rids rtot rfl, if_pos hT]
    unfold searchRecipes searchRecipesP
    rw [hl2]
    rfl
  · intro st3 n3 q3 ids3 tot3 hl
    unfold SearchCache.lookup at hl
    cases hfind : st3.find? (fun r => r.queryHash = queryHash q3) with
    | none =>
      rw [hfind] at hl
      cases hl
    | some row =>
      rw [hfind] at hl
      have hl3 : (if n3 < row.expiresAt then
          some (row.resultIds, row.totalResults) else none) = some (ids3, tot3) := hl
      by_cases hexp : n3 < row.expiresAt
      · rw [if_pos hexp] at hl3
        have hpair := Option.some.inj hl3
        refine ⟨row, List.mem_of_find?_eq_some hfind, ?_,
          (congrArg Prod.fst hpair).symm, (congrArg Prod.snd hpair).symm⟩
        have := List.find?_some hfind
        simpa using this
      · rw [if_neg hexp] at hl3
        cases hl3

/-- Upstream stub for the C1 witness: always returns ids 7, 3 with total 9. -/
def upChickenC1 : String → Nat → UpstreamResult (List Nat × Nat) :=
  fun _ _ => .ok ([7, 3], 9)

/-- Witness for C1: after a fresh chicken search stored at T = 0, the
repeat at T = 100 is served from cache with the same ids, order and store,
and without calling upstream. -/
theorem search_cached_roundtrip_witness :
    searchRecipes upChickenC1 (SearchCache.store [] 0 "chicken" [7, 3] 9)
        100 "chicken" 24 =
      (Except.ok { resultIds := [7, 3], total := 9, cached := true },
       SearchCache.store [] 0 "chicken" [7, 3] 9, false) :=
  (search_cached_roundtrip upChickenC1 []
    (SearchCache.store [] 0 "chicken" [7, 3] 9)
    0 100 24 24 "chicken" ⟨[7, 3], 9, false⟩ rfl rfl (by decide)).1

/-- C10: the frontend submit handler returns before issuing any HTTP
request when the query is empty or whitespace, leaving the component state
(result list, loading flag, error) unchanged; consequently whenever a
request is issued the query does not normalize to the empty string, so this
client never invokes the cache layer with an empty normalized query. -/
theorem empty_query_no_request
    (doFetch : String → Except String FrontendSearchResponse)
    (ui : RecipeSearchState) :
    (jsTrim ui.query = "" → handleSearchSubmit doFetch ui = (ui, false)) ∧
    ((handleSearchSubmit doFetch ui).2 = true → ¬ normalizeQuery ui.query = "") := by
  constructor
  · intro h
    unfold handleSearchSubmit
    rw [if_pos h]
  · intro h hnq
    have hws : ∀ c ∈ ui.query.data, isWs c := (normalizeQuery_eq_empty_iff _).mp hnq
    have htrim : jsTrim ui.query = "" := (jsTrim_eq_empty_iff _).mpr hws
    unfold handleSearchSubmit at h
    rw [if_pos htrim] at h
    simp at h

/-- Witness for C10: submitting a whitespace-only query issues no request
and leaves the state untouched. -/
theorem empty_query_no_request_witness :
    handleSearchSubmit (fun _ => Except.error "Failed to search recipes")
      ⟨"   ", [], false, none⟩ = (⟨"   ", [], false, none⟩, false) :=
  (empty_query_no_request (fun _ => Except.error "Failed to search recipes")
    ⟨"   ", [], false, none⟩).1 (by decide)
